import Mathlib

/-!
Shallow embedding of the pBTC buyback-and-distribution pipeline.

The definitions below are translated from the TypeScript source:
* `src/lib/solana/distribute.ts` (`distributeToHolders`)
* `src/lib/solana/swap.ts` (`swapSolToWsol`, `buyPbtcWithSol`)
* the holder-ranking module (`getTopHolders`, two historical versions in the
  repository; both assign ranks the same way)
* `src/app/api/cron/buyback/route.ts` (`POST`, modelled as `runBuybackCycle`)

External network effects (RPC submission, HTTP fetches, owner lookups) are
modelled as explicit oracle functions passed in as parameters; JavaScript
numbers are modelled as exact rationals; JavaScript early returns become
sum-typed outcomes.
-/

/-- A ranked token holder, as in the TypeScript `TokenHolder` interface
(`{ wallet, balance, rank }`), also the element shape taken by
`distributeToHolders`. -/
structure TokenHolder where
  wallet : String
  balance : ℚ
  rank : Nat
deriving DecidableEq

/-- Result of one distribution attempt, as in the TypeScript
`DistributionResult` interface of `distribute.ts`. -/
structure DistributionResult where
  wallet : String
  amount : ℚ
  txSignature : Option String
  success : Bool
  error : Option String
deriving DecidableEq

/-- `holders.reduce((sum, h) => sum + h.balance, 0)` of `distribute.ts`
line 31: the total holdings used for proportional shares, computed once
from the full holder list before any transfer. -/
def totalHoldings (holders : List TokenHolder) : ℚ :=
  (holders.map TokenHolder.balance).sum

/-- `const share = (holder.balance / totalHoldings) * wsolAmount`
(`distribute.ts` line 39). -/
def shareOf (wsolAmount total : ℚ) (h : TokenHolder) : ℚ :=
  h.balance / total * wsolAmount

/-- `const shareLamports = Math.floor(share * 1e9)` (`distribute.ts`
line 40): the share rounded down to whole lamports (WSOL has 9 decimals). -/
def shareLamports (wsolAmount total : ℚ) (h : TokenHolder) : ℤ :=
  ⌊shareOf wsolAmount total h * 1000000000⌋

/-- One iteration of the `for (const holder of holders)` loop of
`distribute.ts` lines 36-88.  The `transfer` oracle stands for everything
inside the `try` block after the share check (destination key parsing,
ATA lookup/creation and `sendAndConfirmTransaction`): it returns either a
transaction signature or the caught error message.  Every branch pushes
exactly one result for the holder. -/
def distributeOne (transfer : String → ℤ → Except String String)
    (wsolAmount total : ℚ) (h : TokenHolder) : DistributionResult :=
  let share := shareOf wsolAmount total h
  let lam := shareLamports wsolAmount total h
  if lam ≤ 0 then
    ⟨h.wallet, 0, none, false, some "Share too small"⟩
  else
    match transfer h.wallet lam with
    | .ok sig => ⟨h.wallet, share, some sig, true, none⟩
    | .error e => ⟨h.wallet, 0, none, false, some e⟩

/-- `distributeToHolders` of `distribute.ts` lines 21-91: computes the
total holdings once, then processes every holder in order, appending one
result per holder regardless of individual outcomes. -/
def distributeToHolders (transfer : String → ℤ → Except String String)
    (wsolAmount : ℚ) (holders : List TokenHolder) : List DistributionResult :=
  holders.map (distributeOne transfer wsolAmount (totalHoldings holders))

lemma distributeOne_wallet (transfer : String → ℤ → Except String String)
    (wsolAmount total : ℚ) (h : TokenHolder) :
    (distributeOne transfer wsolAmount total h).wallet = h.wallet := by
  unfold distributeOne
  dsimp only
  split
  · rfl
  · split <;> rfl

/-- C2: for every invocation of `distributeToHolders`, whatever the
per-recipient transfer outcomes, the result list has exactly the length of
the input holder list and the i-th result's wallet equals the i-th input
holder's wallet; no recipient failure drops later recipients. -/
theorem distributeToHolders_same_cardinality_and_wallets
    (transfer : String → ℤ → Except String String) (wsolAmount : ℚ)
    (holders : List TokenHolder) :
    (distributeToHolders transfer wsolAmount holders).length = holders.length ∧
    ∀ i : Nat,
      ((distributeToHolders transfer wsolAmount holders)[i]?).map DistributionResult.wallet
        = (holders[i]?).map TokenHolder.wallet := by
  constructor
  · simp [distributeToHolders]
  · intro i
    simp only [distributeToHolders, List.getElem?_map, Option.map_map]
    cases holders[i]? with
    | none => rfl
    | some h => simp [Function.comp, distributeOne_wallet]

lemma sum_map_mul_const (l : List TokenHolder) (c : ℚ) :
    (l.map fun h => h.balance * c).sum = (l.map TokenHolder.balance).sum * c := by
  induction l with
  | nil => simp
  | cons a t ih => simp [ih, add_mul]

/-- C3: for every holder list with positive balances and every non-negative
pool amount, the per-holder shares computed by `distributeToHolders`
(`totalAmount * balance / totalHoldings`, each rounded down to whole
lamports by `shareLamports`) sum to at most the pool: the rounding-down
policy never over-allocates. -/
theorem distributeToHolders_shares_sum_le_total (wsolAmount : ℚ)
    (holders : List TokenHolder)
    (hb : ∀ h ∈ holders, 0 < h.balance) (hA : 0 ≤ wsolAmount) :
    ((holders.map fun h =>
        ((shareLamports wsolAmount (totalHoldings holders) h : ℤ) : ℚ)).sum)
      ≤ wsolAmount * 1000000000 := by
  have hstep : ((holders.map fun h =>
      ((shareLamports wsolAmount (totalHoldings holders) h : ℤ) : ℚ)).sum)
      ≤ (holders.map fun h =>
          shareOf wsolAmount (totalHoldings holders) h * 1000000000).sum := by
    refine List.sum_le_sum ?_
    intro h _
    exact Int.floor_le _
  refine hstep.trans ?_
  cases holders with
  | nil =>
    simpa using mul_nonneg hA (by norm_num : (0:ℚ) ≤ 1000000000)
  | cons a t =>
    set l : List TokenHolder := a :: t with hl
    have hT : 0 < totalHoldings l := by
      refine List.sum_pos _ ?_ (by simp [hl])
      intro b hbmem
      rcases List.mem_map.mp hbmem with ⟨h, hmem, rfl⟩
      exact hb h hmem
    have hrw : ∀ h : TokenHolder,
        shareOf wsolAmount (totalHoldings l) h * 1000000000
          = h.balance * (wsolAmount * 1000000000 / totalHoldings l) := by
      intro h
      unfold shareOf
      ring
    have heq : (l.map fun h =>
        shareOf wsolAmount (totalHoldings l) h * 1000000000).sum
        = wsolAmount * 1000000000 := by
      calc (l.map fun h => shareOf wsolAmount (totalHoldings l) h * 1000000000).sum
          = (l.map fun h =>
              h.balance * (wsolAmount * 1000000000 / totalHoldings l)).sum := by
            simp only [hrw]
        _ = totalHoldings l * (wsolAmount * 1000000000 / totalHoldings l) := by
            simp only [sum_map_mul_const, totalHoldings]
        _ = wsolAmount * 1000000000 := by
            rw [mul_comm, div_mul_cancel₀ _ hT.ne']
    exact heq.le

/-- Witness for C3 at the spec's own scenario: three holders with balances
300, 200, 100 and a pool of 0.6 WSOL. -/
theorem distributeToHolders_shares_sum_le_total_witness :
    (∀ h ∈ ([⟨"a", 300, 1⟩, ⟨"b", 200, 2⟩, ⟨"c", 100, 3⟩] : List TokenHolder),
        0 < h.balance) ∧
    (0 : ℚ) ≤ 6/10 ∧
    ((([⟨"a", 300, 1⟩, ⟨"b", 200, 2⟩, ⟨"c", 100, 3⟩] : List TokenHolder).map fun h =>
        ((shareLamports (6/10)
            (totalHoldings [⟨"a", 300, 1⟩, ⟨"b", 200, 2⟩, ⟨"c", 100, 3⟩]) h : ℤ) : ℚ)).sum)
      ≤ 6/10 * 1000000000 :=
  ⟨by decide, by norm_num,
    distributeToHolders_shares_sum_le_total (6/10)
      [⟨"a", 300, 1⟩, ⟨"b", 200, 2⟩, ⟨"c", 100, 3⟩] (by decide) (by norm_num)⟩

/-- A largest-token-account entry as returned by the chain-data provider
(`TokenAccountInfo` interface of the holder-ranking module; only the fields
the ranking logic reads are modelled: `address` and `uiAmount`). -/
structure TokenAccountInfo where
  address : String
  uiAmount : ℚ
deriving DecidableEq

/-- The owner-resolution loop of `getTopHolders` (both historical versions:
the batched-parallel one and the later sequential-with-delays one).  In both
versions the accounts are processed in their provider order and a resolved
holder at absolute position `i + j` (batch start plus offset in batch) is
stored with `rank: i + j + 1`, i.e. its 1-indexed position among the queried
sub-accounts; an account whose owner lookup fails (the `ownerOf` oracle, the
final outcome of `getTokenAccountOwner` after its internal retries, returns
`none`) is skipped without consuming a rank slot for anyone else.  The
batching only inserts delays, so the loop is modelled as one indexed pass. -/
def ownerResolutionPass (ownerOf : String → Option String) :
    List TokenAccountInfo → Nat → List TokenHolder
  | [], _ => []
  | a :: rest, idx =>
    match ownerOf a.address with
    | some o => ⟨o, a.uiAmount, idx + 1⟩ :: ownerResolutionPass ownerOf rest (idx + 1)
    | none => ownerResolutionPass ownerOf rest (idx + 1)

/-- `getTopHolders` of the holder-ranking module (later version, lines
361-471 of the file holding it).  `heliusApiKey` and `mint` model the
module-level constants, which default to the empty string when the
environment variable is absent (`process.env.X || ""`), so the JS falsiness
checks become emptiness checks.  `largest` is the final outcome of the
`getTokenLargestAccounts` call including its rate-limit retry wrapper: an
exhausted retry budget (`null` response) and a thrown error both yield the
caught/empty path, hence one error case.  All failure paths return `[]`. -/
def getTopHolders (heliusApiKey mint : String)
    (largest : Except String (List TokenAccountInfo))
    (ownerOf : String → Option String) : List TokenHolder :=
  if heliusApiKey = "" then []
  else if mint = "" then []
  else
    match largest with
    | .error _ => []
    | .ok accounts =>
      if accounts.isEmpty then []
      else ownerResolutionPass ownerOf (accounts.take 25) 0

/-- Density of ranks as the spec words it (C1): the ranks of the returned
holders are exactly 1..k, contiguous, where k is the number of holders.
This predicate is written from the claim, to be compared with what the
source-translated `getTopHolders` produces. -/
def specRanksDense (hs : List TokenHolder) : Prop :=
  hs.map TokenHolder.rank = List.range' 1 hs.length

/-- Owner-resolution oracle for the C1 counterexample: the lookup for the
first sub-account fails, the second resolves. -/
def cexOwnerOf : String → Option String :=
  fun a => if a = "acct2" then some "w2" else none

/-- Accounts list for the C1 counterexample. -/
def cexAccounts : List TokenAccountInfo := [⟨"acct1", 5⟩, ⟨"acct2", 3⟩]

/-- C1 counterexample: with two queried sub-accounts where the first owner
lookup fails, `getTopHolders` returns the single resolved holder with rank 2
(its original position), not rank 1 — the ranks are not reassigned
contiguously, so they are not dense 1..k as the claim states. -/
theorem getTopHolders_ranks_not_dense_counterexample :
    cexOwnerOf "acct1" = none ∧
    getTopHolders "key" "mint" (.ok cexAccounts) cexOwnerOf = [⟨"w2", 3, 2⟩] ∧
    ¬ specRanksDense (getTopHolders "key" "mint" (.ok cexAccounts) cexOwnerOf) := by
  refine ⟨by decide, by decide, ?_⟩
  unfold specRanksDense
  decide

lemma ownerResolutionPass_eq_enumFrom (ownerOf : String → Option String)
    (l : List TokenAccountInfo) (idx : Nat) :
    ownerResolutionPass ownerOf l idx
      = (l.enumFrom idx).filterMap (fun p =>
          (ownerOf p.2.address).map fun o => ⟨o, p.2.uiAmount, p.1 + 1⟩) := by
  induction l generalizing idx with
  | nil => rfl
  | cons a rest ih =>
    simp only [ownerResolutionPass, List.enumFrom_cons, List.filterMap_cons]
    cases howner : ownerOf a.address with
    | none => simpa [howner] using ih (idx + 1)
    | some o => simpa [howner] using ih (idx + 1)

/-- C1 amended: for every configured ranking pass, each returned holder
carries as rank its original 1-indexed position among the (at most 25)
queried sub-accounts, and failed owner lookups are skipped — so when some
lookup fails the surviving ranks keep their gaps instead of being
reassigned densely. -/
theorem getTopHolders_rank_is_source_position (heliusApiKey mint : String)
    (accounts : List TokenAccountInfo) (ownerOf : String → Option String)
    (hkey : heliusApiKey ≠ "") (hmint : mint ≠ "") :
    getTopHolders heliusApiKey mint (.ok accounts) ownerOf
      = ((accounts.take 25).enum).filterMap (fun p =>
          (ownerOf p.2.address).map fun o => ⟨o, p.2.uiAmount, p.1 + 1⟩) := by
  unfold getTopHolders
  rw [if_neg hkey, if_neg hmint]
  cases haccts : accounts.isEmpty
  · simp only [haccts, Bool.false_eq_true, if_false]
    exact ownerResolutionPass_eq_enumFrom ownerOf (accounts.take 25) 0
  · have : accounts = [] := List.isEmpty_iff.mp haccts
    subst this
    rfl

/-- Witness for the amended C1 at the counterexample input: the returned
holder keeps rank 2, its position among the queried sub-accounts. -/
theorem getTopHolders_rank_is_source_position_witness :
    "key" ≠ "" ∧ "mint" ≠ "" ∧
    getTopHolders "key" "mint" (.ok cexAccounts) cexOwnerOf
      = ((cexAccounts.take 25).enum).filterMap (fun p =>
          (cexOwnerOf p.2.address).map fun o => ⟨o, p.2.uiAmount, p.1 + 1⟩) :=
  ⟨by decide, by decide,
    getTopHolders_rank_is_source_position "key" "mint" cexAccounts cexOwnerOf
      (by decide) (by decide)⟩

/-- Result of the wrap step, as in the TypeScript `SwapResult` interface of
`swap.ts`. -/
structure SwapResult where
  success : Bool
  txSignature : Option String
  outputAmount : Option ℚ
  error : Option String
deriving DecidableEq

/-- `swapSolToWsol` of `swap.ts` lines 158-222: computes
`lamports = Math.floor(solAmount * 1e9)`, builds the
create-ATA / transfer / sync-native transaction for that lamport amount
and submits it.  The `chainSend` oracle stands for the whole on-chain
interaction (ATA lookup, blockhash fetch, `sendAndConfirmTransaction`),
keyed by the lamport amount actually transferred: it returns the
confirmed signature or the caught error message.  On success the reported
`outputAmount` is the untouched input `solAmount` (line 213). -/
def swapSolToWsol (chainSend : ℤ → Except String String)
    (solAmount : ℚ) : SwapResult :=
  let lamports : ℤ := ⌊solAmount * 1000000000⌋
  match chainSend lamports with
  | .ok sig => ⟨true, some sig, some solAmount, none⟩
  | .error e => ⟨false, none, none, some e⟩

/-- C10: for every successful invocation of the mandatory conversion step
`swapSolToWsol` with input amount `a`, the reported `outputAmount` is
exactly `a` — the wrap is the identity on quantity, deducting no fee or
slippage. -/
theorem swapSolToWsol_output_eq_input (chainSend : ℤ → Except String String)
    (solAmount : ℚ)
    (hs : (swapSolToWsol chainSend solAmount).success = true) :
    (swapSolToWsol chainSend solAmount).outputAmount = some solAmount := by
  simp only [swapSolToWsol] at hs ⊢
  cases h : chainSend ⌊solAmount * 1000000000⌋ with
  | ok sig => simp [h]
  | error e =>
    rw [h] at hs
    simp at hs

/-- Witness for C10 at a concrete successful wrap of 0.04 SOL. -/
theorem swapSolToWsol_output_eq_input_witness :
    (swapSolToWsol (fun _ => .ok "sig") (4/100)).success = true ∧
    (swapSolToWsol (fun _ => .ok "sig") (4/100)).outputAmount = some (4/100) :=
  ⟨by decide, swapSolToWsol_output_eq_input (fun _ => .ok "sig") (4/100) (by decide)⟩

/-- JS truthiness of `claimResult.amount` in
`if (claimResult.success && claimResult.amount)` (`route.ts` line 162):
an absent amount and an amount of exactly 0 are both falsy. -/
def claimAmountTruthy : Option ℚ → Bool
  | none => false
  | some a => a != 0

/-- Outcome of the fund-sourcing block of the buyback route. -/
inductive AcquireOutcome where
  | proceed (solAmount : ℚ)
  | skipped
  | errorNoSol
deriving DecidableEq

/-- The fund-sourcing fallback of `route.ts` lines 160-190: if the claim
succeeded with a truthy amount, use it; otherwise use
`Math.max(0, walletBalanceSol - 0.01)` when positive, else return the
skipped (`success: true, skipped: true`) response.  The subsequent
`!claimResult.success && solAmount === 0` check (line 183, a 500 error)
is kept even though the earlier skip return makes it unreachable. -/
def acquireFunds (claimSuccess : Bool) (claimAmount : Option ℚ)
    (walletBalanceSol : ℚ) : AcquireOutcome :=
  let solAmountOpt : Option ℚ :=
    if claimSuccess && claimAmountTruthy claimAmount then
      some (claimAmount.getD 0)
    else
      let availableBalance := max 0 (walletBalanceSol - 1/100)
      if 0 < availableBalance then some availableBalance else none
  match solAmountOpt with
  | none => .skipped
  | some solAmount =>
    if !claimSuccess && solAmount == 0 then .errorNoSol
    else .proceed solAmount

/-- C4: for every cycle whose fee claim fails, the acquired amount is the
wallet balance minus the fixed 0.01 reserve when that difference is
positive, and the cycle reports the skipped no-funds sentinel (not an
error) when it is non-positive. -/
theorem acquireFunds_claim_failed_fallback (claimAmount : Option ℚ)
    (walletBalanceSol : ℚ) :
    (0 < walletBalanceSol - 1/100 →
      acquireFunds false claimAmount walletBalanceSol
        = .proceed (walletBalanceSol - 1/100)) ∧
    (walletBalanceSol - 1/100 ≤ 0 →
      acquireFunds false claimAmount walletBalanceSol = .skipped) := by
  constructor
  · intro hpos
    have hne : ((walletBalanceSol - 1/100) == 0) = false := by
      rw [beq_eq_false_iff_ne]
      exact hpos.ne'
    unfold acquireFunds
    simp only [Bool.false_and, Bool.false_eq_true, if_false,
      max_eq_right hpos.le, if_pos hpos, hne, Bool.not_false, Bool.true_and]
  · intro hnonpos
    unfold acquireFunds
    simp only [Bool.false_and, Bool.false_eq_true, if_false,
      max_eq_left hnonpos, lt_self_iff_false]

/-- Witness for C4 at the spec's scenario: claim failed, wallet balance
0.05, reserve 0.01, so the cycle proceeds with 0.04. -/
theorem acquireFunds_claim_failed_fallback_witness :
    (0 : ℚ) < 5/100 - 1/100 ∧
    acquireFunds false none (5/100) = .proceed (4/100) := by
  have h := (acquireFunds_claim_failed_fallback none (5/100)).1 (by norm_num)
  refine ⟨by norm_num, ?_⟩
  rw [h]
  norm_num

/-- A row of the `holders` table as written by the buyback route
(`route.ts` lines 266-275 insert, lines 306-312 update); the `updated_at`
column is omitted as no claim reads it. -/
structure HolderRow where
  wallet : String
  balance : ℚ
  rank : Nat
  lastRewardAmount : Option ℚ
  lastRewardAt : Option String
deriving DecidableEq

/-- A row of the `distributions` table as inserted by the buyback route
(`route.ts` lines 286-294); `buyback_id` and `completed_at` are omitted as
the model runs a single cycle. -/
structure DistRecord where
  wallet : String
  amount : ℚ
  holderRank : Nat
  txSignature : Option String
  status : String
deriving DecidableEq

/-- The persisted state the buyback route writes during one cycle:
the cycle's own `buybacks` row status, the `holders` table and the
`distributions` table (the append-only `activity_log` and the countdown
config key are omitted as no claim reads them). -/
structure DbState where
  buybackStatus : Option String
  holdersTable : List HolderRow
  distributions : List DistRecord
deriving DecidableEq

/-- The JSON response shape of the buyback route's `POST`, collapsed to the
outcome kind each return site produces. -/
inductive CycleOutcome where
  | skippedNoFunds
  | errorNoSol
  | swapFailed (err : String)
  | completedNoHolders
  | completed (successCount : Nat)
deriving DecidableEq

/-- Whether the route's response reports success (HTTP 200 with
`success: true`): the skipped, no-holders and completed returns do, the
two error returns are HTTP 500. -/
def cycleHttpOk : CycleOutcome → Bool
  | .skippedNoFunds => true
  | .errorNoSol => false
  | .swapFailed _ => false
  | .completedNoHolders => true
  | .completed _ => true

/-- External observations consumed by one run of the buyback route:
the claim step's outcome, the wallet balance, the chain oracle of the wrap
transaction, the holder list produced by `getTopHolders`, the per-transfer
oracle of the distribution loop, and the current timestamp string. -/
structure CycleInputs where
  claimSuccess : Bool
  claimAmount : Option ℚ
  walletBalanceSol : ℚ
  chainSend : ℤ → Except String String
  holders : List TokenHolder
  transfer : String → ℤ → Except String String
  now : String

/-- The holder-snapshot replacement of `route.ts` lines 265-275: old rows
deleted, one fresh row per ranked holder with `last_reward_amount` and
`last_reward_at` explicitly set to null. -/
def snapshotRows (holders : List TokenHolder) : List HolderRow :=
  holders.map fun h => ⟨h.wallet, h.balance, h.rank, none, none⟩

/-- The `distributions` row built for a successful transfer (`route.ts`
lines 286-294): rank looked up in the holder list by wallet with `|| 0`
fallback, status `completed`, the transfer's signature carried over. -/
def mkDistRecord (holders : List TokenHolder) (d : DistributionResult) : DistRecord :=
  ⟨d.wallet, d.amount,
    ((holders.find? fun h => h.wallet == d.wallet).map TokenHolder.rank).getD 0,
    d.txSignature, "completed"⟩

/-- One iteration of the `for (const dist of distributions)` loop of
`route.ts` lines 284-317: a successful transfer inserts its distribution
row and updates the reward fields of the holder rows matching its wallet;
a failed transfer only logs to the console and writes nothing. -/
def recordDistribution (holders : List TokenHolder) (now : String)
    (db : DbState) (d : DistributionResult) : DbState :=
  if d.success then
    { db with
      distributions := db.distributions ++ [mkDistRecord holders d],
      holdersTable := db.holdersTable.map fun r =>
        if r.wallet == d.wallet then
          { r with lastRewardAmount := some d.amount, lastRewardAt := some now }
        else r }
  else db

/-- The buyback route's `POST` (`route.ts` lines 160-328) from the point
where the claim outcome is known: fund-sourcing fallback, wrap, holder
snapshot replacement and distribution recording, returning the response
outcome and the final persisted state.  Auth, key decryption and the
balance/claim network calls happen before this slice and are captured by
`CycleInputs`. -/
def runBuybackCycle (inp : CycleInputs) : CycleOutcome × DbState :=
  match acquireFunds inp.claimSuccess inp.claimAmount inp.walletBalanceSol with
  | .skipped => (.skippedNoFunds, ⟨none, [], []⟩)
  | .errorNoSol => (.errorNoSol, ⟨none, [], []⟩)
  | .proceed solAmount =>
    let db1 : DbState := ⟨some "processing", [], []⟩
    let swapResult := swapSolToWsol inp.chainSend solAmount
    if !swapResult.success then
      (.swapFailed (swapResult.error.getD ""),
        { db1 with buybackStatus := some "failed" })
    else
      let db2 : DbState := { db1 with buybackStatus := some "completed" }
      if inp.holders.isEmpty then
        (.completedNoHolders, db2)
      else
        let db3 : DbState := { db2 with holdersTable := snapshotRows inp.holders }
        let results := distributeToHolders inp.transfer
          (swapResult.outputAmount.getD 0) inp.holders
        let db4 := results.foldl (recordDistribution inp.holders inp.now) db3
        (.completed (results.filter DistributionResult.success).length, db4)

/-- C5: for every cycle whose mandatory wrap step fails, the cycle is
recorded as failed and no distribution record, and no holder snapshot row,
is written — ranking and distribution are never attempted after a failed
conversion. -/
theorem conversionFailure_no_distribution_records (inp : CycleInputs)
    (solAmount : ℚ)
    (hacq : acquireFunds inp.claimSuccess inp.claimAmount inp.walletBalanceSol
      = .proceed solAmount)
    (hswap : (swapSolToWsol inp.chainSend solAmount).success = false) :
    (runBuybackCycle inp).2.distributions = [] ∧
    (runBuybackCycle inp).2.holdersTable = [] ∧
    (runBuybackCycle inp).2.buybackStatus = some "failed" := by
  unfold runBuybackCycle
  rw [hacq]
  simp [hswap]

/-- Concrete inputs for the C5 witness: the claim succeeded with 1 SOL but
the wrap transaction errors. -/
def cycleInputsSwapFails : CycleInputs :=
  ⟨true, some 1, 0, fun _ => .error "rpc down", [⟨"w1", 1, 1⟩],
    fun _ _ => .ok "sig", "t0"⟩

/-- Witness for C5 at `cycleInputsSwapFails`. -/
theorem conversionFailure_no_distribution_records_witness :
    acquireFunds cycleInputsSwapFails.claimSuccess cycleInputsSwapFails.claimAmount
        cycleInputsSwapFails.walletBalanceSol = .proceed 1 ∧
    (swapSolToWsol cycleInputsSwapFails.chainSend 1).success = false ∧
    ((runBuybackCycle cycleInputsSwapFails).2.distributions = [] ∧
     (runBuybackCycle cycleInputsSwapFails).2.holdersTable = [] ∧
     (runBuybackCycle cycleInputsSwapFails).2.buybackStatus = some "failed") :=
  ⟨by decide, by decide,
    conversionFailure_no_distribution_records cycleInputsSwapFails 1
      (by decide) (by decide)⟩

lemma foldl_recordDistribution_distributions (holders : List TokenHolder)
    (now : String) (results : List DistributionResult) (db : DbState) :
    (results.foldl (recordDistribution holders now) db).distributions
      = db.distributions
        ++ (results.filter DistributionResult.success).map (mkDistRecord holders) := by
  induction results generalizing db with
  | nil => simp
  | cons d rest ih =>
    rw [List.foldl_cons, ih]
    cases hd : d.success with
    | false => simp [recordDistribution, hd]
    | true => simp [recordDistribution, hd]

lemma distributeOne_success_txSignature
    (transfer : String → ℤ → Except String String) (wsolAmount total : ℚ)
    (h : TokenHolder) :
    (distributeOne transfer wsolAmount total h).success = true →
    ((distributeOne transfer wsolAmount total h).txSignature).isSome = true := by
  unfold distributeOne
  dsimp only
  split
  · intro hc
    simp at hc
  · split
    · intro _
      rfl
    · intro hc
      simp at hc

/-- Concrete inputs for the C6 counterexample and witness: two holders,
the transfer to `w1` succeeds and the transfer to `w2` fails. -/
def cycleInputsOneFailure : CycleInputs :=
  ⟨true, some 1, 0, fun _ => .ok "wrapsig", [⟨"w1", 1, 1⟩, ⟨"w2", 1, 2⟩],
    fun w _ => if w = "w1" then .ok "sig1" else .error "transfer failed", "t0"⟩

/-- C6 counterexample: in a cycle where the transfer attempt to `w2`
resolves as a failure, only one distribution record (for the successful
`w1` transfer) is written — the failed attempt gets no record at all, so
it is not the case that every resolved attempt yields a record with a
success-or-failure outcome. -/
theorem distribution_record_every_attempt_counterexample :
    (distributeToHolders cycleInputsOneFailure.transfer 1
        cycleInputsOneFailure.holders).map (fun d => (d.wallet, d.success))
      = [("w1", true), ("w2", false)] ∧
    (runBuybackCycle cycleInputsOneFailure).2.distributions.map DistRecord.wallet
      = ["w1"] := by
  have hdist : distributeToHolders cycleInputsOneFailure.transfer 1
      cycleInputsOneFailure.holders
      = [⟨"w1", 1/2, some "sig1", true, none⟩,
         ⟨"w2", 0, none, false, some "transfer failed"⟩] := by
    norm_num [distributeToHolders, distributeOne, shareOf, shareLamports,
      totalHoldings, cycleInputsOneFailure]
    rfl
  have hacq : acquireFunds cycleInputsOneFailure.claimSuccess
      cycleInputsOneFailure.claimAmount cycleInputsOneFailure.walletBalanceSol
      = .proceed 1 := by decide
  have hswapeval : swapSolToWsol cycleInputsOneFailure.chainSend 1
      = ⟨true, some "wrapsig", some 1, none⟩ := rfl
  have hrun : (runBuybackCycle cycleInputsOneFailure).2.distributions
      = ((distributeToHolders cycleInputsOneFailure.transfer 1
            cycleInputsOneFailure.holders).filter DistributionResult.success).map
          (mkDistRecord cycleInputsOneFailure.holders) := by
    unfold runBuybackCycle
    rw [hacq]
    simp only [hswapeval, Bool.not_true, Bool.false_eq_true, if_false,
      show cycleInputsOneFailure.holders.isEmpty = false from rfl,
      Option.getD_some, foldl_recordDistribution_distributions,
      List.nil_append]
  refine ⟨?_, ?_⟩
  · rw [hdist]
    rfl
  · rw [hrun, hdist]
    rfl

/-- C6 amended: in every cycle that reaches the distribution step, the
distribution records written are exactly one per successful transfer
attempt (in order, with status `completed` and the transaction signature
present); failed attempts produce no distribution record. -/
theorem distribution_records_exactly_successes (inp : CycleInputs)
    (solAmount : ℚ)
    (hacq : acquireFunds inp.claimSuccess inp.claimAmount inp.walletBalanceSol
      = .proceed solAmount)
    (hswap : (swapSolToWsol inp.chainSend solAmount).success = true)
    (hne : inp.holders.isEmpty = false) :
    (runBuybackCycle inp).2.distributions
      = ((distributeToHolders inp.transfer
            ((swapSolToWsol inp.chainSend solAmount).outputAmount.getD 0)
            inp.holders).filter DistributionResult.success).map
          (mkDistRecord inp.holders) ∧
    ∀ rec ∈ (runBuybackCycle inp).2.distributions,
      rec.status = "completed" ∧ rec.txSignature.isSome = true := by
  have hrun : (runBuybackCycle inp).2.distributions
      = ((distributeToHolders inp.transfer
            ((swapSolToWsol inp.chainSend solAmount).outputAmount.getD 0)
            inp.holders).filter DistributionResult.success).map
          (mkDistRecord inp.holders) := by
    unfold runBuybackCycle
    rw [hacq]
    simp only [hswap, Bool.not_true, Bool.false_eq_true, if_false, hne,
      foldl_recordDistribution_distributions]
    rfl
  refine ⟨hrun, ?_⟩
  intro rec hrec
  rw [hrun] at hrec
  rcases List.mem_map.mp hrec with ⟨d, hdmem, rfl⟩
  rcases List.mem_filter.mp hdmem with ⟨hdlist, hdsucc⟩
  rcases List.mem_map.mp hdlist with ⟨h, _, rfl⟩
  refine ⟨rfl, ?_⟩
  exact distributeOne_success_txSignature _ _ _ h hdsucc

/-- Witness for the amended C6 at `cycleInputsOneFailure`. -/
theorem distribution_records_exactly_successes_witness :
    acquireFunds cycleInputsOneFailure.claimSuccess
        cycleInputsOneFailure.claimAmount
        cycleInputsOneFailure.walletBalanceSol = .proceed 1 ∧
    (swapSolToWsol cycleInputsOneFailure.chainSend 1).success = true ∧
    cycleInputsOneFailure.holders.isEmpty = false ∧
    ((runBuybackCycle cycleInputsOneFailure).2.distributions
      = ((distributeToHolders cycleInputsOneFailure.transfer
            ((swapSolToWsol cycleInputsOneFailure.chainSend 1).outputAmount.getD 0)
            cycleInputsOneFailure.holders).filter DistributionResult.success).map
          (mkDistRecord cycleInputsOneFailure.holders) ∧
     ∀ rec ∈ (runBuybackCycle cycleInputsOneFailure).2.distributions,
       rec.status = "completed" ∧ rec.txSignature.isSome = true) :=
  ⟨by decide, by decide, by decide,
    distribution_records_exactly_successes cycleInputsOneFailure 1
      (by decide) (by decide) (by decide)⟩

lemma foldl_recordDistribution_reward (holders : List TokenHolder)
    (now : String) (P : String → Prop) (results : List DistributionResult)
    (db : DbState)
    (hres : ∀ d ∈ results, d.success = true → P d.wallet)
    (hdb : ∀ r ∈ db.holdersTable,
      (r.lastRewardAmount ≠ none ∨ r.lastRewardAt ≠ none) → P r.wallet) :
    ∀ r ∈ (results.foldl (recordDistribution holders now) db).holdersTable,
      (r.lastRewardAmount ≠ none ∨ r.lastRewardAt ≠ none) → P r.wallet := by
  induction results generalizing db with
  | nil => simpa using hdb
  | cons d rest ih =>
    rw [List.foldl_cons]
    refine ih _ ?_ ?_
    · intro d' hd' hs
      exact hres d' (List.mem_cons_of_mem _ hd') hs
    · intro r hr hnn
      unfold recordDistribution at hr
      cases hd : d.success with
      | false =>
        rw [hd] at hr
        simp only [Bool.false_eq_true, if_false] at hr
        exact hdb r hr hnn
      | true =>
        rw [hd] at hr
        simp only [if_true] at hr
        rcases List.mem_map.mp hr with ⟨r0, hr0, rfl⟩
        cases hw : r0.wallet == d.wallet with
        | false =>
          simp only [hw, Bool.false_eq_true, if_false] at hnn ⊢
          exact hdb r0 hr0 hnn
        | true =>
          have hweq : r0.wallet = d.wallet := beq_iff_eq.mp hw
          have hP := hres d (List.mem_cons_self _ _) hd
          simpa [hweq] using hP

/-- C9: in every cycle that reaches the distribution step, the snapshot
replacement writes every holder row with null reward fields, and in the
final state a holder row's reward fields are non-null only if some
transfer to that row's wallet in this cycle succeeded — rows whose
transfer failed or was never attempted keep null reward fields. -/
theorem rewards_only_for_successful_transfers (inp : CycleInputs)
    (solAmount : ℚ)
    (hacq : acquireFunds inp.claimSuccess inp.claimAmount inp.walletBalanceSol
      = .proceed solAmount)
    (hswap : (swapSolToWsol inp.chainSend solAmount).success = true)
    (hne : inp.holders.isEmpty = false) :
    (∀ r ∈ snapshotRows inp.holders,
      r.lastRewardAmount = none ∧ r.lastRewardAt = none) ∧
    (∀ r ∈ (runBuybackCycle inp).2.holdersTable,
      (r.lastRewardAmount ≠ none ∨ r.lastRewardAt ≠ none) →
      ∃ d ∈ distributeToHolders inp.transfer
          ((swapSolToWsol inp.chainSend solAmount).outputAmount.getD 0)
          inp.holders,
        d.success = true ∧ d.wallet = r.wallet) := by
  constructor
  · intro r hr
    rcases List.mem_map.mp hr with ⟨h, _, rfl⟩
    exact ⟨rfl, rfl⟩
  · have hrun : (runBuybackCycle inp).2.holdersTable
        = ((distributeToHolders inp.transfer
              ((swapSolToWsol inp.chainSend solAmount).outputAmount.getD 0)
              inp.holders).foldl
            (recordDistribution inp.holders inp.now)
            ⟨some "completed", snapshotRows inp.holders, []⟩).holdersTable := by
      unfold runBuybackCycle
      rw [hacq]
      simp only [hswap, Bool.not_true, Bool.false_eq_true, if_false, hne]
    rw [hrun]
    refine foldl_recordDistribution_reward inp.holders inp.now
      (fun w => ∃ d ∈ distributeToHolders inp.transfer
          ((swapSolToWsol inp.chainSend solAmount).outputAmount.getD 0)
          inp.holders, d.success = true ∧ d.wallet = w) _ _ ?_ ?_
    · intro d hd hs
      exact ⟨d, hd, hs, rfl⟩
    · intro r hr hnn
      rcases List.mem_map.mp hr with ⟨h, _, rfl⟩
      rcases hnn with hnn | hnn <;> exact absurd rfl hnn

/-- Concrete inputs for the C9 witness: one holder whose transfer
succeeds. -/
def cycleInputsOneSuccess : CycleInputs :=
  ⟨true, some 1, 0, fun _ => .ok "wrapsig", [⟨"w1", 1, 1⟩],
    fun _ _ => .ok "distsig", "t0"⟩

/-- Witness for C9 at `cycleInputsOneSuccess`. -/
theorem rewards_only_for_successful_transfers_witness :
    acquireFunds cycleInputsOneSuccess.claimSuccess
        cycleInputsOneSuccess.claimAmount
        cycleInputsOneSuccess.walletBalanceSol = .proceed 1 ∧
    (swapSolToWsol cycleInputsOneSuccess.chainSend 1).success = true ∧
    cycleInputsOneSuccess.holders.isEmpty = false ∧
    ((∀ r ∈ snapshotRows cycleInputsOneSuccess.holders,
        r.lastRewardAmount = none ∧ r.lastRewardAt = none) ∧
     (∀ r ∈ (runBuybackCycle cycleInputsOneSuccess).2.holdersTable,
        (r.lastRewardAmount ≠ none ∨ r.lastRewardAt ≠ none) →
        ∃ d ∈ distributeToHolders cycleInputsOneSuccess.transfer
            ((swapSolToWsol cycleInputsOneSuccess.chainSend 1).outputAmount.getD 0)
            cycleInputsOneSuccess.holders,
          d.success = true ∧ d.wallet = r.wallet)) :=
  ⟨by decide, by decide, by decide,
    rewards_only_for_successful_transfers cycleInputsOneSuccess 1
      (by decide) (by decide) (by decide)⟩

/-- Concrete inputs for the C8 counterexample: the distributed token's mint
is not configured (empty string), so the holder list fed to the cycle is
whatever `getTopHolders` returns for it; funds and wrap both succeed. -/
def cycleInputsNoMint : CycleInputs :=
  ⟨true, some 1, 0, fun _ => .ok "wrapsig",
    getTopHolders "key" "" (.ok cexAccounts) cexOwnerOf,
    fun _ _ => .ok "sig", "t0"⟩

/-- C8 counterexample: with the mint unconfigured, `getTopHolders` returns
the empty list after only logging, and the cycle then takes the
no-holders return, an HTTP 200 `success: true` response — the cycle
completes normally with an empty holder set instead of ending as a fatal
configuration error. -/
theorem mint_not_configured_counterexample :
    getTopHolders "key" "" (.ok cexAccounts) cexOwnerOf = [] ∧
    (runBuybackCycle cycleInputsNoMint).1 = .completedNoHolders ∧
    cycleHttpOk (runBuybackCycle cycleInputsNoMint).1 = true := by
  refine ⟨by decide, ?_, ?_⟩ <;> decide

/-- C8 amended: for every cycle whose holder list comes from a ranking
pass with the mint unconfigured, the holder list is empty and — whenever
the cycle reaches the ranking step — the cycle completes normally with
the distinct no-holders outcome and a success response, writing no
snapshot rows and no distribution records; the missing mint is not
treated as a fatal error. -/
theorem mint_not_configured_completes_normally (inp : CycleInputs)
    (key : String) (largest : Except String (List TokenAccountInfo))
    (ownerOf : String → Option String) (solAmount : ℚ)
    (hh : inp.holders = getTopHolders key "" largest ownerOf)
    (hacq : acquireFunds inp.claimSuccess inp.claimAmount inp.walletBalanceSol
      = .proceed solAmount)
    (hswap : (swapSolToWsol inp.chainSend solAmount).success = true) :
    inp.holders = [] ∧
    (runBuybackCycle inp).1 = .completedNoHolders ∧
    cycleHttpOk (runBuybackCycle inp).1 = true ∧
    (runBuybackCycle inp).2.holdersTable = [] ∧
    (runBuybackCycle inp).2.distributions = [] := by
  have hnil : getTopHolders key "" largest ownerOf = [] := by
    unfold getTopHolders
    by_cases hk : key = ""
    · rw [if_pos hk]
    · rw [if_neg hk, if_pos rfl]
  have hempty : inp.holders = [] := hh.trans hnil
  have hrun : runBuybackCycle inp
      = (.completedNoHolders, ⟨some "completed", [], []⟩) := by
    unfold runBuybackCycle
    rw [hacq]
    simp only [hswap, Bool.not_true, Bool.false_eq_true, if_false, hempty,
      List.isEmpty_nil, if_true]
  rw [hrun]
  exact ⟨hempty, rfl, rfl, rfl, rfl⟩

/-- Witness for the amended C8 at `cycleInputsNoMint`. -/
theorem mint_not_configured_completes_normally_witness :
    cycleInputsNoMint.holders
      = getTopHolders "key" "" (.ok cexAccounts) cexOwnerOf ∧
    acquireFunds cycleInputsNoMint.claimSuccess cycleInputsNoMint.claimAmount
        cycleInputsNoMint.walletBalanceSol = .proceed 1 ∧
    (swapSolToWsol cycleInputsNoMint.chainSend 1).success = true ∧
    (cycleInputsNoMint.holders = [] ∧
     (runBuybackCycle cycleInputsNoMint).1 = .completedNoHolders ∧
     cycleHttpOk (runBuybackCycle cycleInputsNoMint).1 = true ∧
     (runBuybackCycle cycleInputsNoMint).2.holdersTable = [] ∧
     (runBuybackCycle cycleInputsNoMint).2.distributions = []) :=
  ⟨rfl, by decide, by decide,
    mint_not_configured_completes_normally cycleInputsNoMint "key"
      (.ok cexAccounts) cexOwnerOf 1 rfl (by decide) (by decide)⟩

/-- Character-list version of startsWith, used to model JS
`String.prototype.includes`. -/
def startsWithChars : List Char → List Char → Bool
  | [], _ => true
  | _ :: _, [] => false
  | a :: xs, b :: ys => a == b && startsWithChars xs ys

/-- Character-list substring test: some suffix of the haystack starts with
the needle. -/
def containsChars (pat : List Char) : List Char → Bool
  | [] => startsWithChars pat []
  | b :: ys => startsWithChars pat (b :: ys) || containsChars pat ys

/-- JS `s.includes(pat)`. -/
def strIncludes (s pat : String) : Bool :=
  containsChars pat.data s.data

/-- The slippage-error test of `swap.ts` lines 111-112:
`errorStr.includes("TooMuchSolRequired") || errorStr.includes("0x1772")`. -/
def isSlippageError (errStr : String) : Bool :=
  strIncludes errStr "TooMuchSolRequired" || strIncludes errStr "0x1772"

/-- Result of the buy step, as in the TypeScript `BuyResult` interface of
`swap.ts` (the `tokenAmount` field is never populated by the source). -/
structure BuyResult where
  success : Bool
  txSignature : Option String
  solSpent : Option ℚ
  error : Option String
deriving DecidableEq

/-- Outcome of one attempt of `buyPbtcWithSol`, as observed from the
external services: the PumpPortal HTTP call failed (`!pumpResponse.ok`,
line 80), the submitted transaction confirmed with an on-chain error
(`confirmation.value.err`, line 106, carrying the stringified error), some
other exception was thrown (deserialization, send, network), or the
transaction confirmed cleanly. -/
inductive BuyAttemptOutcome where
  | httpError (msg : String)
  | confirmErr (errStr : String)
  | thrown (msg : String)
  | confirmed (sig : String)

/-- What one attempt of `buyPbtcWithSol` records: its number, the slippage
tolerance used (`swap.ts` lines 59-61:
`baseSlippage + (attempt - 1) * 5`) and the backoff wait before it
(`swap.ts` lines 47-51: `2 ^ (attempt - 2) * 1000` ms for attempt > 1). -/
structure BuyAttemptRecord where
  attempt : Nat
  slippage : ℚ
  waitMs : Nat
deriving DecidableEq

/-- The slippage and wait actually computed by attempt `a` of
`buyPbtcWithSol`. -/
def attemptRecordAt (base : ℚ) (a : Nat) : BuyAttemptRecord :=
  ⟨a, base + ((a - 1 : Nat) : ℚ) * 5, if 1 < a then 2 ^ (a - 2) * 1000 else 0⟩

/-- The retry loop of `buyPbtcWithSol` (`swap.ts` lines 36-145), with the
fuel argument standing for the remaining loop iterations
(`maxRetries - attempt + 1`; the fuel-exhausted case is the
`Buy failed after all retries` fallback of lines 147-151, reachable only
with a zero retry budget).  On an HTTP error the loop continues while
`attempt < maxRetries` (line 84); on a confirmed transaction error it
continues via the slippage check (lines 112-115) or, failing that, by
throwing into the catch block which continues unless this was the last
attempt (lines 130-143); a plain thrown error likewise continues unless
`attempt === maxRetries`.  Every attempt, whatever follows it, computes
its slippage from the attempt number alone.  The second component collects
one `BuyAttemptRecord` per attempt made. -/
def buyLoop (outcome : Nat → BuyAttemptOutcome) (base solAmount : ℚ)
    (maxRetries : Nat) : Nat → Option String → Nat → BuyResult × List BuyAttemptRecord
  | _, lastError, 0 =>
    (⟨false, none, none, some (lastError.getD "Buy failed after all retries")⟩, [])
  | attempt, _, fuel + 1 =>
    let tr := attemptRecordAt base attempt
    match outcome attempt with
    | .confirmed sig =>
      (⟨true, some sig, some solAmount, none⟩, [tr])
    | .httpError msg =>
      if attempt < maxRetries then
        let p := buyLoop outcome base solAmount maxRetries (attempt + 1) (some msg) fuel
        (p.1, tr :: p.2)
      else
        (⟨false, none, none, some msg⟩, [tr])
    | .confirmErr errStr =>
      let msg := "Transaction failed: " ++ errStr
      if isSlippageError errStr && attempt < maxRetries then
        let p := buyLoop outcome base solAmount maxRetries (attempt + 1) (some msg) fuel
        (p.1, tr :: p.2)
      else
        if attempt == maxRetries then
          (⟨false, none, none, some msg⟩, [tr])
        else
          let p := buyLoop outcome base solAmount maxRetries (attempt + 1) (some msg) fuel
          (p.1, tr :: p.2)
    | .thrown msg =>
      if attempt == maxRetries then
        (⟨false, none, none, some msg⟩, [tr])
      else
        let p := buyLoop outcome base solAmount maxRetries (attempt + 1) (some msg) fuel
        (p.1, tr :: p.2)

/-- `buyPbtcWithSol` of `swap.ts` lines 32-152 (retry budget explicit;
the source defaults it to 3), paired with the trace of attempts made. -/
def buyPbtcWithSol (outcome : Nat → BuyAttemptOutcome) (base solAmount : ℚ)
    (maxRetries : Nat) : BuyResult × List BuyAttemptRecord :=
  buyLoop outcome base solAmount maxRetries 1 none maxRetries

/-- The trace shape every run of the buy loop produces: `len` consecutive
attempt records starting at attempt number `a`. -/
def expectedTrace (base : ℚ) (a len : Nat) : List BuyAttemptRecord :=
  (List.range len).map fun i => attemptRecordAt base (a + i)

lemma expectedTrace_succ_cons (base : ℚ) (a n : Nat) :
    expectedTrace base a (n + 1)
      = attemptRecordAt base a :: expectedTrace base (a + 1) n := by
  unfold expectedTrace
  rw [List.range_succ_eq_map, List.map_cons, List.map_map]
  refine congrArg₂ List.cons (by rw [Nat.add_zero]) ?_
  refine List.map_congr_left ?_
  intro i _
  show attemptRecordAt base (a + (i + 1)) = attemptRecordAt base (a + 1 + i)
  congr 1
  omega

lemma expectedTrace_one (base : ℚ) (a : Nat) :
    expectedTrace base a 1 = [attemptRecordAt base a] := by
  rw [expectedTrace_succ_cons]
  rfl

lemma buyLoop_trace (outcome : Nat → BuyAttemptOutcome) (base solAmount : ℚ)
    (maxRetries : Nat) :
    ∀ (fuel attempt : Nat) (lastError : Option String),
      ∃ len : Nat, len ≤ fuel ∧
        (buyLoop outcome base solAmount maxRetries attempt lastError fuel).2
          = expectedTrace base attempt len := by
  intro fuel
  induction fuel with
  | zero =>
    intro attempt lastError
    exact ⟨0, Nat.le_refl 0, rfl⟩
  | succ fuel ih =>
    intro attempt lastError
    unfold buyLoop
    cases houtcome : outcome attempt with
    | confirmed sig =>
      refine ⟨1, Nat.succ_le_succ (Nat.zero_le fuel), ?_⟩
      dsimp only
      rw [expectedTrace_one]
    | httpError msg =>
      dsimp only
      by_cases hlt : attempt < maxRetries
      · rw [if_pos hlt]
        obtain ⟨len, hlen, htr⟩ := ih (attempt + 1) (some msg)
        refine ⟨len + 1, Nat.succ_le_succ hlen, ?_⟩
        dsimp only
        rw [expectedTrace_succ_cons]
        exact congrArg (List.cons (attemptRecordAt base attempt)) htr
      · rw [if_neg hlt]
        refine ⟨1, Nat.succ_le_succ (Nat.zero_le fuel), ?_⟩
        dsimp only
        rw [expectedTrace_one]
    | confirmErr errStr =>
      dsimp only
      by_cases hslip : (isSlippageError errStr && decide (attempt < maxRetries)) = true
      · rw [if_pos hslip]
        obtain ⟨len, hlen, htr⟩ := ih (attempt + 1)
          (some ("Transaction failed: " ++ errStr))
        refine ⟨len + 1, Nat.succ_le_succ hlen, ?_⟩
        dsimp only
        rw [expectedTrace_succ_cons]
        exact congrArg (List.cons (attemptRecordAt base attempt)) htr
      · rw [if_neg hslip]
        by_cases heq : (attempt == maxRetries) = true
        · rw [if_pos heq]
          refine ⟨1, Nat.succ_le_succ (Nat.zero_le fuel), ?_⟩
          dsimp only
          rw [expectedTrace_one]
        · rw [if_neg heq]
          obtain ⟨len, hlen, htr⟩ := ih (attempt + 1)
            (some ("Transaction failed: " ++ errStr))
          refine ⟨len + 1, Nat.succ_le_succ hlen, ?_⟩
          dsimp only
          rw [expectedTrace_succ_cons]
          exact congrArg (List.cons (attemptRecordAt base attempt)) htr
    | thrown msg =>
      dsimp only
      by_cases heq : (attempt == maxRetries) = true
      · rw [if_pos heq]
        refine ⟨1, Nat.succ_le_succ (Nat.zero_le fuel), ?_⟩
        dsimp only
        rw [expectedTrace_one]
      · rw [if_neg heq]
        obtain ⟨len, hlen, htr⟩ := ih (attempt + 1) (some msg)
        refine ⟨len + 1, Nat.succ_le_succ hlen, ?_⟩
        dsimp only
        rw [expectedTrace_succ_cons]
        exact congrArg (List.cons (attemptRecordAt base attempt)) htr

/-- C7 amended: every run of `buyPbtcWithSol` makes at most `maxRetries`
attempts, and the attempts it makes are exactly attempts 1..k whose
slippage tolerance is `base + 5 * (attempt - 1)` — escalating by 5
percentage points on every retry regardless of why the previous attempt
failed — with exponential backoff `2 ^ (attempt - 2)` seconds before each
retry. -/
theorem buyPbtcWithSol_slippage_escalates_every_attempt
    (outcome : Nat → BuyAttemptOutcome) (base solAmount : ℚ)
    (maxRetries : Nat) :
    (buyPbtcWithSol outcome base solAmount maxRetries).2
      = ((List.range
            (buyPbtcWithSol outcome base solAmount maxRetries).2.length).map
          fun i => attemptRecordAt base (1 + i)) ∧
    (buyPbtcWithSol outcome base solAmount maxRetries).2.length ≤ maxRetries := by
  obtain ⟨len, hlen, htr⟩ :=
    buyLoop_trace outcome base solAmount maxRetries maxRetries 1 none
  have htr2 : (buyPbtcWithSol outcome base solAmount maxRetries).2
      = expectedTrace base 1 len := htr
  have hlength : (buyPbtcWithSol outcome base solAmount maxRetries).2.length
      = len := by
    rw [htr2]
    unfold expectedTrace
    rw [List.length_map, List.length_range]
  constructor
  · rw [htr2]
    unfold expectedTrace
    rw [List.length_map, List.length_range]
  · rw [hlength]
    exact hlen

/-- Attempt outcomes for the C7 counterexample: the first attempt fails
with a venue HTTP error (nothing to do with slippage), the second
succeeds. -/
def cexBuyOutcome : Nat → BuyAttemptOutcome :=
  fun a => if a = 1 then .httpError "PumpPortal API error: 500 - server error"
    else .confirmed "buysig"

/-- C7 counterexample: after a first-attempt failure that is not a
slippage error, the retry still runs with slippage tolerance 20 instead
of the base 15 — the tolerance is increased by a retry whose cause was
unrelated to slippage, contradicting the claim. -/
theorem slippage_raised_after_non_slippage_failure_counterexample :
    isSlippageError "PumpPortal API error: 500 - server error" = false ∧
    cexBuyOutcome 1
      = .httpError "PumpPortal API error: 500 - server error" ∧
    (buyPbtcWithSol cexBuyOutcome 15 1 3).2.map BuyAttemptRecord.slippage
      = [15, 20] := by
  refine ⟨by decide, rfl, ?_⟩
  show ((buyLoop cexBuyOutcome 15 1 3 1 none
      (Nat.succ (Nat.succ (Nat.succ 0)))).2).map BuyAttemptRecord.slippage
    = [15, 20]
  simp only [buyLoop, cexBuyOutcome]
  norm_num [attemptRecordAt]
